import Mathlib

/-!
Verification of the order composition logic of the OrderEdit screen:
line-item editing (add/remove/select product/edit quantity/edit price),
order total computation and pre-commit validation, shallowly embedded
from the TypeScript source. JS numbers are modelled as rationals, and
the JS falsy coercions on numbers (`x || 0`, `x || 1`) are modelled
explicitly; a string is falsy exactly when it is empty.
-/

namespace OrderEdit

/-- A catalog product as consumed by the order edit screen. -/
structure Product where
  id : String
  name : String
  price : ℚ
  stock : ℤ
  status : String
deriving DecidableEq

/-- A customer record (only the fields the submit path reads). -/
structure Customer where
  id : String
  name : String
deriving DecidableEq

/-- An employee record (only the fields the submit path reads). -/
structure Employee where
  id : String
  name : String
deriving DecidableEq

/-- One line item of the order form state (`items` state array). -/
structure Item where
  id : String
  productId : String
  productName : String
  quantity : ℚ
  price : ℚ
deriving DecidableEq

/-- JS coercion `x || 0` on a number: 0 is falsy and maps to the default 0. -/
def orZero (x : ℚ) : ℚ := if x = 0 then 0 else x

/-- JS coercion `x || 1` on a number: 0 is falsy and maps to the default 1. -/
def orOne (x : ℚ) : ℚ := if x = 0 then 1 else x

/-- The `addItem` handler: appends a new line item with no product selected,
quantity 1 and price 0. The id produced by `crypto.randomUUID()` is modelled
as an externally supplied identifier `freshId`. -/
def addItem (items : List Item) (freshId : String) : List Item :=
  items ++ [{ id := freshId, productId := "", productName := "", quantity := 1, price := 0 }]

/-- The `removeItem` handler: filters out the item with the given id when the
list has more than one element; otherwise leaves the list unchanged and
raises the destructive "Cannot remove item" toast. The second component is
true exactly when the rejection toast is shown. -/
def removeItem (items : List Item) (tid : String) : List Item × Bool :=
  if items.length > 1 then
    (items.filter (fun item => item.id ≠ tid), false)
  else
    (items, true)

/-- The `updateItemPrice` handler (product selection): looks the product up in
the catalog and, when found, rewrites the matching item with the product's
id, name and price and resets its quantity to 1; when the product is not
found the state is untouched. -/
def updateItemPrice (products : List Product) (items : List Item)
    (tid : String) (pid : String) : List Item :=
  match products.find? (fun p => p.id = pid) with
  | some product =>
      items.map (fun item =>
        if item.id = tid then
          { item with
              productId := product.id
              productName := product.name
              price := product.price
              quantity := 1 }
        else item)
  | none => items

/-- The `updateItemQuantity` handler: clamps the requested quantity to
`Math.max(1, Math.floor(quantity))` and stores it on the matching item. -/
def updateItemQuantity (items : List Item) (tid : String) (q : ℚ) : List Item :=
  let validQuantity : ℤ := max 1 ⌊q⌋
  items.map (fun item =>
    if item.id = tid then { item with quantity := (validQuantity : ℚ) } else item)

/-- The `calculateTotal` function: folds over the items, skipping items whose
`productId` is falsy (empty) and otherwise adding
`(item.price || 0) * (item.quantity || 1)`. -/
def calculateTotal (items : List Item) : ℚ :=
  items.foldl
    (fun sum item =>
      if item.productId = "" then sum
      else sum + orZero item.price * orOne item.quantity)
    0

/-- The inline price `Input` onChange handler: the parsed value (none models a
`parseFloat` result of NaN) is stored on the matching item only when it is a
number and nonnegative; otherwise the state is untouched. -/
def setUnitPrice (items : List Item) (tid : String) (parsed : Option ℚ) : List Item :=
  match parsed with
  | some price =>
      if 0 ≤ price then
        items.map (fun i => if i.id = tid then { i with price := price } else i)
      else items
  | none => items

/-- The order-edit form state mutated by the handlers above (the fields the
submit path reads and the claims mention). -/
structure EditState where
  items : List Item
  customerId : String
  employeeId : String
  status : String
deriving DecidableEq

/-- The early-return validation failures of `handleSubmit`, in source order. -/
inductive SubmitError where
  | customerRequired
  | employeeRequired
  | productsRequired
  | customerNotFound
  | employeeNotFound
deriving DecidableEq

/-- The sequential early-return checks of `handleSubmit` before any network
call: missing customer, missing employee, empty items or an item without a
selected product, then the customer and employee catalog lookups. On success
it yields the resolved customer and employee. -/
def validateForCommit (st : EditState) (customers : List Customer)
    (employees : List Employee) : Except SubmitError (Customer × Employee) :=
  if st.customerId = "" then .error .customerRequired
  else if st.employeeId = "" then .error .employeeRequired
  else if st.items.length = 0 ∨ st.items.any (fun item => item.productId = "") then
    .error .productsRequired
  else
    match customers.find? (fun c => c.id = st.customerId) with
    | none => .error .customerNotFound
    | some customer =>
        match employees.find? (fun e => e.id = st.employeeId) with
        | none => .error .employeeNotFound
        | some employee => .ok (customer, employee)

/-- True exactly when `validateForCommit` reaches the success branch. -/
def validatePasses (st : EditState) (customers : List Customer)
    (employees : List Employee) : Bool :=
  match validateForCommit st customers employees with
  | .ok _ => true
  | .error _ => false

/-- The payload `handleSubmit` passes to `updateOrder` on success. -/
structure UpdatePayload where
  customerId : String
  customerName : String
  employeeId : String
  employeeName : String
  items : List Item
  total : ℚ
  status : String
deriving DecidableEq

/-- The `handleSubmit` flow restricted to the editing state and the network
decision: on any validation failure it returns the state unchanged and no
`updateOrder` payload; on success it returns the state together with the
payload built for `updateOrder` (with the source's falsy coercions on the
serialized items). -/
def handleSubmit (st : EditState) (customers : List Customer)
    (employees : List Employee) : EditState × Option UpdatePayload :=
  match validateForCommit st customers employees with
  | .error _ => (st, none)
  | .ok (customer, employee) =>
      (st, some
        { customerId := st.customerId
          customerName := customer.name
          employeeId := st.employeeId
          employeeName := employee.name
          items := st.items.map (fun item =>
            { item with
                productName := if item.productName = "" then "" else item.productName
                quantity := orOne item.quantity
                price := orZero item.price })
          total := calculateTotal st.items
          status := st.status })

/-! Basic facts about the JS falsy coercions. -/

theorem orZero_eq (x : ℚ) : orZero x = x := by
  unfold orZero; split <;> simp_all

theorem orOne_eq_of_ne (x : ℚ) (h : x ≠ 0) : orOne x = x := by
  unfold orOne; split <;> simp_all

/-- The contribution of one item to the fold inside `calculateTotal`. -/
def itemTerm (item : Item) : ℚ :=
  if item.productId = "" then 0 else orZero item.price * orOne item.quantity

theorem calculateTotal_aux (items : List Item) (s : ℚ) :
    items.foldl
      (fun sum item =>
        if item.productId = "" then sum
        else sum + orZero item.price * orOne item.quantity)
      s = s + (items.map itemTerm).sum := by
  induction items generalizing s with
  | nil => simp
  | cons a l ih =>
      rw [List.foldl_cons, ih, List.map_cons, List.sum_cons]
      unfold itemTerm
      split <;> ring

theorem calculateTotal_eq_sum (items : List Item) :
    calculateTotal items = (items.map itemTerm).sum := by
  unfold calculateTotal
  rw [calculateTotal_aux]
  ring

/-- The specification's total formula: the sum of `unitPrice * quantity` over
exactly the items with a selected product. -/
def specOrderTotal (items : List Item) : ℚ :=
  ((items.filter fun i => i.productId ≠ "").map fun i => i.price * i.quantity).sum

/-! Concrete records used by witnesses and counterexamples. -/

/-- A line item with no product selected, as produced by `addItem`. -/
def itemA : Item :=
  { id := "i1", productId := "", productName := "", quantity := 1, price := 0 }

/-- A second unselected line item with a distinct id. -/
def itemB : Item :=
  { id := "i2", productId := "", productName := "", quantity := 1, price := 0 }

/-- A line item with a selected product, quantity 2 and unit price 3. -/
def itemP : Item :=
  { id := "i1", productId := "p1", productName := "P1", quantity := 2, price := 3 }

/-- Claim C1: `updateItemQuantity` stores exactly `max(1, floor q)` — an integer
at least 1 — as the quantity of the item with the targeted id, for every
rational input `q` (negative, zero or fractional alike), leaving its other
fields (in particular whether a product is selected) untouched. -/
theorem updateItemQuantity_floor_clamp (items : List Item) (tid : String) (q : ℚ)
    (j : ℕ) (item : Item) (hj : items[j]? = some item) (hid : item.id = tid) :
    (updateItemQuantity items tid q)[j]? =
      some { item with quantity := ((max 1 ⌊q⌋ : ℤ) : ℚ) } ∧
    (1 : ℤ) ≤ max 1 ⌊q⌋ := by
  refine ⟨?_, le_max_left 1 ⌊q⌋⟩
  simp [updateItemQuantity, List.getElem?_map, hj, hid]

/-- Witness for C1 at a concrete negative fractional input. -/
theorem updateItemQuantity_floor_clamp_witness :
    (updateItemQuantity [itemA] "i1" (-(3/2) : ℚ))[0]? =
      some { itemA with quantity := ((max 1 ⌊(-(3/2) : ℚ)⌋ : ℤ) : ℚ) } ∧
    (1 : ℤ) ≤ max 1 ⌊(-(3/2) : ℚ)⌋ :=
  updateItemQuantity_floor_clamp [itemA] "i1" (-(3/2)) 0 itemA rfl rfl

/-- Claim C2: `calculateTotal` is a pure function of the item list: on every
list of line items (whose quantities are nonzero, as the LineItem data model
guarantees) it equals the specification's sum of `price * quantity` over the
items with a selected product, and an item with no product selected
contributes exactly zero. -/
theorem calculateTotal_sum_selected (items : List Item) (extra : Item)
    (h : ∀ i ∈ items, i.quantity ≠ 0) (hextra : extra.productId = "") :
    calculateTotal items = specOrderTotal items ∧
    calculateTotal (items ++ [extra]) = calculateTotal items := by
  constructor
  · rw [calculateTotal_eq_sum]
    unfold specOrderTotal
    induction items with
    | nil => simp
    | cons a l ih =>
        have ha : a.quantity ≠ 0 := h a (List.mem_cons_self a l)
        have hl : ∀ i ∈ l, i.quantity ≠ 0 := fun i hi => h i (List.mem_cons_of_mem a hi)
        rw [List.map_cons, List.sum_cons, List.filter_cons]
        by_cases hp : a.productId = ""
        · simp [itemTerm, hp, ih hl]
        · simp [itemTerm, hp, orZero_eq, orOne_eq_of_ne a.quantity ha, ih hl]
  · rw [calculateTotal_eq_sum, calculateTotal_eq_sum, List.map_append, List.sum_append]
    simp [itemTerm, hextra]

/-- Witness for C2 on a two-item list with one unselected item. -/
theorem calculateTotal_sum_selected_witness :
    calculateTotal [itemP, itemA] = specOrderTotal [itemP, itemA] ∧
    calculateTotal ([itemP, itemA] ++ [itemB]) = calculateTotal [itemP, itemA] := by
  have h : ∀ i ∈ [itemP, itemA], i.quantity ≠ 0 := by decide
  exact calculateTotal_sum_selected [itemP, itemA] itemB h rfl

/-- Claim C5: When the selected product id resolves in the catalog,
`updateItemPrice` rewrites the targeted item with the product's id, name and
price and resets its quantity to 1 regardless of the prior quantity, keeping
the item's own id. -/
theorem updateItemPrice_selects_product (products : List Product) (items : List Item)
    (tid pid : String) (product : Product)
    (hp : products.find? (fun p => p.id = pid) = some product)
    (j : ℕ) (item : Item) (hj : items[j]? = some item) (hid : item.id = tid) :
    (updateItemPrice products items tid pid)[j]? =
      some { item with
        productId := product.id
        productName := product.name
        price := product.price
        quantity := 1 } := by
  simp [updateItemPrice, hp, List.getElem?_map, hj, hid]

/-- Witness for C5: selecting product p1 on an item with prior quantity 2. -/
theorem updateItemPrice_selects_product_witness :
    (updateItemPrice
        [{ id := "p1", name := "New", price := 7, stock := 4, status := "available" }]
        [itemP] "i1" "p1")[0]? =
      some { itemP with productId := "p1", productName := "New", price := 7, quantity := 1 } := by
  have h := updateItemPrice_selects_product
    [{ id := "p1", name := "New", price := 7, stock := 4, status := "available" }]
    [itemP] "i1" "p1"
    { id := "p1", name := "New", price := 7, stock := 4, status := "available" }
    (by decide) 0 itemP rfl rfl
  simpa using h

/-- Claim C7: The unit-price edit stores the parsed price on the targeted item
exactly when it is a number (`parseFloat` did not yield NaN) and is
nonnegative — with no upper bound — and otherwise leaves the whole item list
unchanged. -/
theorem price_edit_nonnegative_guard (items : List Item) (tid : String) (p : ℚ)
    (j : ℕ) (item : Item) (hj : items[j]? = some item) :
    (0 ≤ p → (setUnitPrice items tid (some p))[j]? =
        some (if item.id = tid then { item with price := p } else item)) ∧
    (p < 0 → setUnitPrice items tid (some p) = items) ∧
    setUnitPrice items tid none = items := by
  refine ⟨fun hple => ?_, fun hneg => ?_, rfl⟩
  · simp [setUnitPrice, if_pos hple, List.getElem?_map, hj]
  · simp [setUnitPrice, if_neg (not_le.mpr hneg)]

/-- Witness for C7: a large accepted price, a rejected negative price and a
rejected NaN. -/
theorem price_edit_nonnegative_guard_witness :
    (setUnitPrice [itemA] "i1" (some 1000000))[0]? = some { itemA with price := 1000000 } ∧
    setUnitPrice [itemA] "i1" (some (-1)) = [itemA] ∧
    setUnitPrice [itemA] "i1" none = [itemA] := by
  refine ⟨?_, (price_edit_nonnegative_guard [itemA] "i1" (-1) 0 itemA rfl).2.1 (by norm_num),
    (price_edit_nonnegative_guard [itemA] "i1" 0 0 itemA rfl).2.2⟩
  have h := (price_edit_nonnegative_guard [itemA] "i1" 1000000 0 itemA rfl).1 (by norm_num)
  simpa [itemA] using h

/-- Claim C9: `addItem` always succeeds: it appends exactly one new line item at
the end of the list — with the freshly generated id (modelling
`crypto.randomUUID()`, assumed distinct from all existing ids), no product
selected, quantity 1 and price 0 — leaving every existing item unchanged. -/
theorem addItem_appends_fresh_item (items : List Item) (freshId : String)
    (hfresh : ∀ i ∈ items, i.id ≠ freshId) :
    addItem items freshId =
      items ++
        [{ id := freshId, productId := "", productName := "", quantity := 1, price := 0 }] ∧
    (addItem items freshId).length = items.length + 1 ∧
    freshId ∉ items.map Item.id := by
  refine ⟨rfl, by simp [addItem], ?_⟩
  intro hmem
  rcases List.mem_map.mp hmem with ⟨i, hi, hidl⟩
  exact hfresh i hi hidl

/-- Witness for C9 on a one-item list and a fresh id. -/
theorem addItem_appends_fresh_item_witness :
    addItem [itemA] "i2" =
      [itemA] ++
        [{ id := "i2", productId := "", productName := "", quantity := 1, price := 0 }] ∧
    (addItem [itemA] "i2").length = [itemA].length + 1 ∧
    "i2" ∉ [itemA].map Item.id :=
  addItem_appends_fresh_item [itemA] "i2" (by decide)

theorem validatePasses_iff_aux (st : EditState) (cs : List Customer) (es : List Employee) :
    validatePasses st cs es = true ↔
      (st.customerId ≠ "" ∧ st.employeeId ≠ "" ∧ st.items ≠ [] ∧
        (∀ i ∈ st.items, i.productId ≠ "") ∧
        (∃ c ∈ cs, c.id = st.customerId) ∧ (∃ e ∈ es, e.id = st.employeeId)) := by
  constructor
  · intro hpass
    unfold validatePasses validateForCommit at hpass
    split_ifs at hpass with h1 h2 h3
    rcases hfc : cs.find? (fun c => c.id = st.customerId) with _ | c
    · rw [hfc] at hpass; simp at hpass
    rcases hfe : es.find? (fun e => e.id = st.employeeId) with _ | e
    · rw [hfc, hfe] at hpass; simp at hpass
    push_neg at h3
    refine ⟨h1, h2, ?_, ?_, ⟨c, List.mem_of_find?_eq_some hfc, ?_⟩,
      ⟨e, List.mem_of_find?_eq_some hfe, ?_⟩⟩
    · intro h0
      exact h3.1 (by simp [h0])
    · intro i hi hp
      exact absurd (List.any_eq_true.mpr ⟨i, hi, by simp [hp]⟩) h3.2
    · simpa using List.find?_some hfc
    · simpa using List.find?_some hfe
  · rintro ⟨hc, he, hne, hall, ⟨c, hcmem, hcid⟩, ⟨e, hemem, heid⟩⟩
    unfold validatePasses validateForCommit
    rw [if_neg hc, if_neg he, if_neg ?hthird]
    case hthird =>
      rintro (h0 | h0)
      · exact hne (List.length_eq_zero.mp h0)
      · rcases List.any_eq_true.mp h0 with ⟨i, hi, hp⟩
        exact hall i hi (by simpa using hp)
    rcases hfc : cs.find? (fun c' => c'.id = st.customerId) with _ | c'
    · exfalso
      have hcontra := List.find?_eq_none.mp hfc c hcmem
      simp [hcid] at hcontra
    rw [hfc]
    rcases hfe : es.find? (fun e' => e'.id = st.employeeId) with _ | e'
    · exfalso
      have hcontra := List.find?_eq_none.mp hfe e hemem
      simp [heid] at hcontra
    rw [hfe]

/-- Claim C3, amended: The pre-commit validation passes exactly when all four
conditions hold — customer selected, employee selected, at least one item,
every item has a selected product — and additionally the selected customer
and employee ids resolve in the fetched customer and employee lists; it
fails whenever any of these is violated. -/
theorem validateForCommit_pass_iff (st : EditState) (cs : List Customer)
    (es : List Employee) :
    validatePasses st cs es = true ↔
      (st.customerId ≠ "" ∧ st.employeeId ≠ "" ∧ st.items ≠ [] ∧
        (∀ i ∈ st.items, i.productId ≠ "") ∧
        (∃ c ∈ cs, c.id = st.customerId) ∧ (∃ e ∈ es, e.id = st.employeeId)) :=
  validatePasses_iff_aux st cs es

/-- A state satisfying all four claimed validation conditions, submitted
while the fetched customer and employee lists are empty. -/
def stNotFound : EditState :=
  { items := [itemP], customerId := "c1", employeeId := "e1", status := "pending" }

/-- Claim C3, counterexample: All four conditions of the claim hold — a customer
and an employee are selected, there is one item and it has a product
selected — yet the pre-commit validation of `handleSubmit` fails, because
the selected customer id does not resolve in the fetched customer list. -/
theorem validateForCommit_four_conditions_insufficient :
    stNotFound.customerId ≠ "" ∧ stNotFound.employeeId ≠ "" ∧
    stNotFound.items = [itemP] ∧ itemP.productId ≠ "" ∧
    validatePasses stNotFound [] [] = false := by decide

/-- Claim C4: `removeItem` on a single-item order returns the list unchanged
and reports the rejection toast; on an order of two or more items with
pairwise distinct ids containing the targeted id, it removes exactly the
targeted item, decreasing the count by one and leaving the remaining items'
relative order and field values unchanged. -/
theorem removeItem_spec (items : List Item) (tid : String) (l1 l2 : List Item) (x : Item) :
    (items.length = 1 → removeItem items tid = (items, true)) ∧
    (items = l1 ++ x :: l2 → x.id = tid → (items.map Item.id).Nodup →
      2 ≤ items.length →
      removeItem items tid = (l1 ++ l2, false) ∧ (l1 ++ l2).length + 1 = items.length) := by
  constructor
  · intro h1
    unfold removeItem
    rw [if_neg (by omega)]
  · rintro rfl hx hnodup hlen
    rw [List.map_append, List.map_cons] at hnodup
    rcases List.nodup_append.mp hnodup with ⟨_, hcons, hdisj⟩
    have hl1 : ∀ y ∈ l1, y.id ≠ tid := by
      intro y hy heq
      exact hdisj (List.mem_map.mpr ⟨y, hy, heq.trans hx.symm⟩) (List.mem_cons_self _ _)
    have hl2 : ∀ y ∈ l2, y.id ≠ tid := by
      intro y hy heq
      exact (List.nodup_cons.mp hcons).1 (List.mem_map.mpr ⟨y, hy, heq.trans hx.symm⟩)
    have hf1 : l1.filter (fun item => item.id ≠ tid) = l1 :=
      List.filter_eq_self.mpr (fun a ha => by simpa using hl1 a ha)
    have hf2 : l2.filter (fun item => item.id ≠ tid) = l2 :=
      List.filter_eq_self.mpr (fun a ha => by simpa using hl2 a ha)
    constructor
    · unfold removeItem
      rw [if_pos (by omega)]
      refine Prod.ext ?_ rfl
      show (l1 ++ x :: l2).filter (fun item => item.id ≠ tid) = l1 ++ l2
      rw [List.filter_append, List.filter_cons, hf1, hf2]
      simp [hx]
    · simp [List.length_append]
      omega

/-- Witness for C4: the single-item rejection and a removal from a two-item
order. -/
theorem removeItem_spec_witness :
    removeItem [itemA] "i1" = ([itemA], true) ∧
    removeItem [itemA, itemB] "i2" = ([itemA], false) := by
  obtain ⟨hA, _⟩ :=
    (removeItem_spec [itemA, itemB] "i2" [itemA] [] itemB).2 rfl rfl (by decide) (by norm_num)
  exact ⟨(removeItem_spec [itemA] "i1" [] [] itemA).1 rfl, by simpa using hA⟩

theorem handleSubmit_of_not_pass (st : EditState) (cs : List Customer)
    (es : List Employee) (h : validatePasses st cs es = false) :
    handleSubmit st cs es = (st, none) := by
  unfold validatePasses at h
  unfold handleSubmit
  cases hv : validateForCommit st cs es with
  | error e => simp [hv]
  | ok pr => rw [hv] at h; simp at h

/-- Claim C8: Whenever one of the four claimed validation conditions is
violated — no customer, no employee, no items, or an item without a selected
product — `handleSubmit` produces no `updateOrder` payload (no network call)
and leaves the editing state (items, customerId, employeeId, status)
unchanged. -/
theorem handleSubmit_no_call_on_invalid (st : EditState) (cs : List Customer)
    (es : List Employee)
    (h : st.customerId = "" ∨ st.employeeId = "" ∨ st.items = [] ∨
      ∃ i ∈ st.items, i.productId = "") :
    handleSubmit st cs es = (st, none) := by
  rcases hb : validatePasses st cs es with _ | _
  · exact handleSubmit_of_not_pass st cs es hb
  · exfalso
    rcases (validatePasses_iff_aux st cs es).mp hb with ⟨hc, he, hne, hall, _, _⟩
    rcases h with h | h | h | ⟨i, hi, hp⟩
    · exact hc h
    · exact he h
    · exact hne h
    · exact hall i hi hp

/-- A state missing its customer selection but otherwise complete. -/
def stMissingCustomer : EditState :=
  { items := [itemP], customerId := "", employeeId := "e1", status := "pending" }

/-- Witness for C8: submitting with no customer selected yields no payload
and an unchanged state. -/
theorem handleSubmit_no_call_on_invalid_witness :
    handleSubmit stMissingCustomer [] [] = (stMissingCustomer, none) :=
  handleSubmit_no_call_on_invalid stMissingCustomer [] [] (Or.inl rfl)

/-- The two-product catalog of the end-to-end scenario. -/
def scenarioProducts : List Product :=
  [{ id := "p1", name := "Product 1", price := 10, stock := 5, status := "available" },
   { id := "p2", name := "Product 2", price := 20, stock := 1, status := "available" }]

/-- Claim C6: The end-to-end scenario: two items added to an empty order, the
first set to product p1 (price 10) with quantity 3, the second set to
product p2 (price 20) with the externally clamped quantity 1, yields a
computed total of 10 * 3 + 20 * 1 = 50. -/
theorem order_edit_scenario_total :
    calculateTotal
      (updateItemQuantity
        (updateItemPrice scenarioProducts
          (updateItemQuantity
            (updateItemPrice scenarioProducts (addItem (addItem [] "a") "b") "a" "p1")
            "a" 3)
          "b" "p2")
        "b" 1) = 50 := by
  have hf1 : scenarioProducts.find? (fun p => p.id = "p1") =
      some { id := "p1", name := "Product 1", price := 10, stock := 5, status := "available" } := rfl
  have hf2 : scenarioProducts.find? (fun p => p.id = "p2") =
      some { id := "p2", name := "Product 2", price := 20, stock := 1, status := "available" } := rfl
  have e0 : addItem (addItem [] "a") "b" =
      [{ id := "a", productId := "", productName := "", quantity := 1, price := 0 },
       { id := "b", productId := "", productName := "", quantity := 1, price := 0 }] := rfl
  have e1 : updateItemPrice scenarioProducts
      [{ id := "a", productId := "", productName := "", quantity := 1, price := 0 },
       { id := "b", productId := "", productName := "", quantity := 1, price := 0 }] "a" "p1" =
      [{ id := "a", productId := "p1", productName := "Product 1", quantity := 1, price := 10 },
       { id := "b", productId := "", productName := "", quantity := 1, price := 0 }] := by
    simp [updateItemPrice, hf1]
  have e2 : updateItemQuantity
      [{ id := "a", productId := "p1", productName := "Product 1", quantity := 1, price := 10 },
       { id := "b", productId := "", productName := "", quantity := 1, price := 0 }] "a" 3 =
      [{ id := "a", productId := "p1", productName := "Product 1", quantity := 3, price := 10 },
       { id := "b", productId := "", productName := "", quantity := 1, price := 0 }] := by
    norm_num [updateItemQuantity]
    decide
  have e3 : updateItemPrice scenarioProducts
      [{ id := "a", productId := "p1", productName := "Product 1", quantity := 3, price := 10 },
       { id := "b", productId := "", productName := "", quantity := 1, price := 0 }] "b" "p2" =
      [{ id := "a", productId := "p1", productName := "Product 1", quantity := 3, price := 10 },
       { id := "b", productId := "p2", productName := "Product 2", quantity := 1, price := 20 }] := by
    simp [updateItemPrice, hf2]
  have e4 : updateItemQuantity
      [{ id := "a", productId := "p1", productName := "Product 1", quantity := 3, price := 10 },
       { id := "b", productId := "p2", productName := "Product 2", quantity := 1, price := 20 }] "b" 1 =
      [{ id := "a", productId := "p1", productName := "Product 1", quantity := 3, price := 10 },
       { id := "b", productId := "p2", productName := "Product 2", quantity := 1, price := 20 }] := by
    norm_num [updateItemQuantity, Int.floor_one]
    decide
  rw [e0, e1, e2, e3, e4]
  norm_num [calculateTotal, orZero, orOne]
  simp
  norm_num

/-- Every item carries an integer quantity of at least 1. -/
def QtyInv (items : List Item) : Prop :=
  ∀ i ∈ items, (∃ n : ℤ, i.quantity = (n : ℚ)) ∧ 1 ≤ i.quantity

/-- Claim C10: If every line item has an integer quantity of at least 1, then
after any single engine operation — add, remove, product selection, quantity
edit or unit-price edit, with arbitrary arguments — every line item still
has an integer quantity of at least 1. -/
theorem ops_preserve_quantity_invariant (items : List Item) (products : List Product)
    (fid tid pid : String) (q : ℚ) (p : Option ℚ) (h : QtyInv items) :
    QtyInv (addItem items fid) ∧
    QtyInv (removeItem items tid).fst ∧
    QtyInv (updateItemPrice products items tid pid) ∧
    QtyInv (updateItemQuantity items tid q) ∧
    QtyInv (setUnitPrice items tid p) := by
  refine ⟨?_, ?_, ?_, ?_, ?_⟩
  · intro i hi
    rcases List.mem_append.mp hi with hi | hi
    · exact h i hi
    · rw [List.mem_singleton.mp hi]
      exact ⟨⟨1, by norm_num⟩, by norm_num⟩
  · intro i hi
    unfold removeItem at hi
    by_cases hlen : items.length > 1
    · rw [if_pos hlen] at hi
      exact h i (List.mem_of_mem_filter hi)
    · rw [if_neg hlen] at hi
      exact h i hi
  · intro i hi
    unfold updateItemPrice at hi
    rcases hf : products.find? (fun pr => pr.id = pid) with _ | product
    · rw [hf] at hi
      exact h i hi
    · rw [hf] at hi
      rcases List.mem_map.mp hi with ⟨j, hj, rfl⟩
      by_cases hid : j.id = tid
      · rw [if_pos hid]
        exact ⟨⟨1, by norm_num⟩, by norm_num⟩
      · rw [if_neg hid]
        exact h j hj
  · intro i hi
    unfold updateItemQuantity at hi
    rcases List.mem_map.mp hi with ⟨j, hj, rfl⟩
    by_cases hid : j.id = tid
    · rw [if_pos hid]
      refine ⟨⟨max 1 ⌊q⌋, rfl⟩, ?_⟩
      show (1 : ℚ) ≤ ((max 1 ⌊q⌋ : ℤ) : ℚ)
      exact_mod_cast le_max_left 1 ⌊q⌋
    · rw [if_neg hid]
      exact h j hj
  · intro i hi
    rcases p with _ | price
    · simp only [setUnitPrice] at hi
      exact h i hi
    · simp only [setUnitPrice] at hi
      by_cases hge : (0 : ℚ) ≤ price
      · rw [if_pos hge] at hi
        rcases List.mem_map.mp hi with ⟨j, hj, rfl⟩
        by_cases hid : j.id = tid
        · rw [if_pos hid]
          exact h j hj
        · rw [if_neg hid]
          exact h j hj
      · rw [if_neg hge] at hi
        exact h i hi

/-- Witness for C10: all five operations applied to a one-item list that
satisfies the invariant. -/
theorem ops_preserve_quantity_invariant_witness :
    QtyInv (addItem [itemA] "i2") ∧
    QtyInv (removeItem [itemA] "i1").fst ∧
    QtyInv (updateItemPrice [] [itemA] "i1" "p1") ∧
    QtyInv (updateItemQuantity [itemA] "i1" (-(3/2))) ∧
    QtyInv (setUnitPrice [itemA] "i1" (some 5)) := by
  have hA : QtyInv [itemA] := by
    intro i hi
    rw [List.mem_singleton.mp hi]
    exact ⟨⟨1, by norm_num [itemA]⟩, by norm_num [itemA]⟩
  exact ops_preserve_quantity_invariant [itemA] [] "i2" "i1" "p1" (-(3/2)) (some 5) hA

end OrderEdit
